import Mathlib

/-
Shallow embedding of src/firewalla_cli.py (Firewalla Time Manager CLI).

The source talks to a bridge over HTTP, mutates policy records and appends
audit entries to time_extensions.log.  Here every external response (health
check, policy list, send/pause results, current timestamp, log file contents)
is an explicit input, and each command is a pure function from those inputs
to an outcome recording the exit code, the record pushed back to the bridge,
the audit entries appended and (for the log command) the lines printed.
-/

namespace FirewallaCLI

/-- A policy record as the bridge returns it: a JSON object whose fields may
be absent.  Field `ptype` embeds the JSON key "type" (`type` is a Lean
keyword); `duration` holds the numeric value of the duration field (the
source stores it as a decimal string and reads it back with `int`, a
lossless round trip); `tag` is the optional list of tag keys. -/
structure Policy where
  pid : Option String
  ptype : Option String
  action : Option String
  duration : Option Int
  cronTime : Option String
  disabled : Option String
  hitCount : Option String
  tag : Option (List String)
deriving DecidableEq

/-- The /health response; only the "status" field steers control flow
(`health.get("status") != "connected"`). -/
structure Health where
  status : Option String
deriving DecidableEq

/-- Outcome of POST /api/send as the client observes it: either the request
fails at the transport level (connection error or non-2xx status, which
`raise_for_status` turns into an exception and `send_message` into
`sys.exit(1)`), or a JSON body comes back.  The body is abstracted to
whether it reports success; the setPolicy callers in the source bind the
body to `result` and never inspect it. -/
inductive SendResult where
  | httpError
  | ok (success : Bool)
deriving DecidableEq

/-- Outcome of POST /api/policy/{id}/pause: transport failure, or a body
whose "success" field is truthy or not and whose "expiresAt" field may be
absent. -/
inductive PauseResult where
  | httpError
  | ok (success : Bool) (expiresAt : Option String)
deriving DecidableEq

/-- One line of time_extensions.log as written by the three mutation
commands, keyed by its shape: extension entries carry no "action" key,
grant entries carry "action": "disabled", pause entries "action": "paused". -/
inductive AuditEntry where
  | extension (timestamp policy_id : String) (tags : List String)
      (extension_minutes : Int) (old_duration new_duration : String)
  | disabled (timestamp policy_id : String) (tags : List String)
      (duration_minutes : Int)
  | paused (timestamp policy_id : String) (tags : List String)
      (duration_minutes : Int) (expires_at : String)
deriving DecidableEq

/-- What one run of a mutation command does: `exitCode` is `some 1` when the
process aborts via `sys.exit(1)` and `none` when the function returns (the
process then exits 0); `sent` is the record passed to the setPolicy send,
when that send is attempted; `audit` the entries appended to the log. -/
structure MutationOutcome where
  exitCode : Option Nat
  sent : Option Policy
  audit : List AuditEntry
deriving DecidableEq

/-- format_duration (line 79): hours = seconds // 3600, minutes =
(seconds % 3600) // 60, rendered "{h}h {m}m" when hours > 0 else "{m}m".
Python // and % are floor division and sign-of-divisor modulus, i.e.
`Int.fdiv` and `Int.fmod`. -/
def format_duration (seconds : Int) : String :=
  let hours := Int.fdiv seconds 3600
  let minutes := Int.fdiv (Int.fmod seconds 3600) 60
  if hours > 0 then
    toString hours ++ "h " ++ toString minutes ++ "m"
  else
    toString minutes ++ "m"

/-- Python str.zfill(width): left-fill with ASCII zeros up to `width`,
keeping a leading sign character in front of the padding; a string already
at least `width` long is returned unchanged. -/
def zfill (s : String) (width : Nat) : String :=
  if width ≤ s.length then s
  else
    let pad := String.mk (List.replicate (width - s.length) '0')
    match s.data with
    | c :: cs => if c = '+' ∨ c = '-' then String.mk [c] ++ pad ++ String.mk cs
                 else pad ++ s
    | [] => pad

/-- Helper for `pySplit`: walk the characters, accumulating the current
field reversed, emitting it at each whitespace run. -/
def pySplitAux : List Char → List Char → List String
  | [], acc => if acc = [] then [] else [String.mk acc.reverse]
  | c :: cs, acc =>
    if c.isWhitespace then
      if acc = [] then pySplitAux cs []
      else String.mk acc.reverse :: pySplitAux cs []
    else pySplitAux cs (c :: acc)

/-- Python str.split() with no argument: split on runs of whitespace,
discarding empty fields (so leading/trailing whitespace contributes
nothing). -/
def pySplit (s : String) : List String := pySplitAux s.data []

/-- parse_cron_time (line 88): split on whitespace; with at least two
fields, minute = parts[0], hour = parts[1], rendered
"{hour.zfill(2)}:{minute.zfill(2)}"; otherwise the input unchanged. -/
def parse_cron_time (cron_str : String) : String :=
  match pySplit cron_str with
  | minute :: hour :: _ => zfill hour 2 ++ ":" ++ zfill minute 2
  | _ => cron_str

/-- The filter of the list comprehension at lines 123-127:
`p.get("type") in ["mac", "intranet"] and "duration" in p and "cronTime"
in p and p.get("tag")` — the last conjunct is Python truthiness, so the
tag list must be present and non-empty. -/
def isTimeBased (p : Policy) : Bool :=
  (p.ptype == some "mac" || p.ptype == some "intranet")
    && p.duration.isSome && p.cronTime.isSome
    && (match p.tag with
        | some ts => !ts.isEmpty
        | none => false)

/-- time_policies (lines 122-127), named as in the spec: the sub-sequence of
the input passing `isTimeBased`. -/
def selectTimeBasedPolicies (policy_rules : List Policy) : List Policy :=
  policy_rules.filter isTimeBased

/-- The policy lookup loop shared by all four mutation commands (e.g. lines
219-223): the first record whose "pid" field equals the target id. -/
def findPolicy (policy_rules : List Policy) (policy_id : String) : Option Policy :=
  policy_rules.find? (fun p => p.pid == some policy_id)

/-- extend_time (lines 203-261).  Inputs: the health response, the fetched
policy list, the target id, the minutes to add, the setPolicy outcome and
the local timestamp.  Mirrors the source: preflight on health status, locate
by pid, new_duration = current + minutes*60 written into the record, push,
and on a returned body append one extension entry. -/
def extend_time (health : Health) (policy_rules : List Policy) (policy_id : String)
    (additional_minutes : Int) (sendResult : SendResult) (now : String) :
    MutationOutcome :=
  if health.status == some "connected" then
    match findPolicy policy_rules policy_id with
    | none => { exitCode := some 1, sent := none, audit := [] }
    | some policy =>
      let current_duration : Int := policy.duration.getD 0
      let additional_seconds := additional_minutes * 60
      let new_duration := current_duration + additional_seconds
      let policy2 := { policy with duration := some new_duration }
      match sendResult with
      | SendResult.httpError => { exitCode := some 1, sent := some policy2, audit := [] }
      | SendResult.ok _ =>
        { exitCode := none, sent := some policy2,
          audit := [AuditEntry.extension now policy_id (policy2.tag.getD [])
                      additional_minutes (format_duration current_duration)
                      (format_duration new_duration)] }
  else { exitCode := some 1, sent := none, audit := [] }

/-- disable_policy (lines 264-315), the `grant` command: same preflight and
lookup, sets the "disabled" field to "1", pushes, and on a returned body
appends one grant entry with action "disabled" and the requested minutes. -/
def disable_policy (health : Health) (policy_rules : List Policy) (policy_id : String)
    (minutes : Int) (sendResult : SendResult) (now : String) : MutationOutcome :=
  if health.status == some "connected" then
    match findPolicy policy_rules policy_id with
    | none => { exitCode := some 1, sent := none, audit := [] }
    | some policy =>
      let policy2 := { policy with disabled := some "1" }
      match sendResult with
      | SendResult.httpError => { exitCode := some 1, sent := some policy2, audit := [] }
      | SendResult.ok _ =>
        { exitCode := none, sent := some policy2,
          audit := [AuditEntry.disabled now policy_id (policy2.tag.getD []) minutes] }
  else { exitCode := some 1, sent := none, audit := [] }

/-- enable_policy (lines 318-350): same preflight and lookup, sets the
"disabled" field to "0", pushes, and appends nothing — the source has no
log write on this path. -/
def enable_policy (health : Health) (policy_rules : List Policy) (policy_id : String)
    (sendResult : SendResult) (_now : String) : MutationOutcome :=
  if health.status == some "connected" then
    match findPolicy policy_rules policy_id with
    | none => { exitCode := some 1, sent := none, audit := [] }
    | some policy =>
      let policy2 := { policy with disabled := some "0" }
      match sendResult with
      | SendResult.httpError => { exitCode := some 1, sent := some policy2, audit := [] }
      | SendResult.ok _ => { exitCode := none, sent := some policy2, audit := [] }
  else { exitCode := some 1, sent := none, audit := [] }

/-- pause_policy (lines 353-409): same preflight and lookup, then the
dedicated pause endpoint; no record is pushed.  On a body with truthy
"success", append one pause entry carrying expires_at =
result.get("expiresAt", ""); otherwise sys.exit(1) with no entry. -/
def pause_policy (health : Health) (policy_rules : List Policy) (policy_id : String)
    (minutes : Int) (pauseResult : PauseResult) (now : String) : MutationOutcome :=
  if health.status == some "connected" then
    match findPolicy policy_rules policy_id with
    | none => { exitCode := some 1, sent := none, audit := [] }
    | some policy =>
      match pauseResult with
      | PauseResult.httpError => { exitCode := some 1, sent := none, audit := [] }
      | PauseResult.ok success expiresAt =>
        if success then
          let expires_at := expiresAt.getD ""
          { exitCode := none, sent := none,
            audit := [AuditEntry.paused now policy_id (policy.tag.getD [])
                        minutes expires_at] }
        else { exitCode := some 1, sent := none, audit := [] }
  else { exitCode := some 1, sent := none, audit := [] }

/-- A user record from the "userTags" map: only "name" and "affiliatedTag"
are read. -/
structure UserTag where
  name : Option String
  affiliatedTag : Option String
deriving DecidableEq

/-- The f-string `f"tag:{affiliated_tag}"` of line 139: Python renders a
missing (None) affiliatedTag as the text "None". -/
def tagKeyOf (affiliated_tag : Option String) : String :=
  match affiliated_tag with
  | some s => "tag:" ++ s
  | none => "tag:None"

/-- user.get("name", "Unknown") (line 137). -/
def resolvedName (u : UserTag) : String := u.name.getD "Unknown"

/-- The list comprehension of line 141: the time-based policies whose tag
list contains the user's tag key. -/
def userPolicyList (time_policies : List Policy) (u : UserTag) : List Policy :=
  time_policies.filter (fun p => (p.tag.getD []).contains (tagKeyOf u.affiliatedTag))

/-- The value stored per user name in the grouped listing (line 143). -/
structure GroupEntry where
  uid : String
  tag : String
  policies : List Policy
deriving DecidableEq

/-- Python dict assignment `d[k] = v`: replace the value in place when the
key is present (the entry keeps its position), otherwise append at the end. -/
def dictInsert {α : Type} (d : List (String × α)) (k : String) (v : α) :
    List (String × α) :=
  if d.any (fun kv => kv.1 == k) then
    d.map (fun kv => if kv.1 == k then (k, v) else kv)
  else d ++ [(k, v)]

/-- Python dict lookup on the association-list model: the (unique) entry for
the key, scanning from the front. -/
def lookupDict {α : Type} (d : List (String × α)) (k : String) : Option α :=
  (d.find? (fun kv => kv.1 == k)).map Prod.snd

/-- One iteration of the grouping loop at lines 136-143: skip users whose
matching policy list is empty, otherwise write the entry under the user's
display name. -/
def groupStep (time_policies : List Policy) (acc : List (String × GroupEntry))
    (e : String × UserTag) : List (String × GroupEntry) :=
  let user_name := resolvedName e.2
  let tag_key := tagKeyOf e.2.affiliatedTag
  let user_policy_list := userPolicyList time_policies e.2
  if user_policy_list.isEmpty then acc
  else dictInsert acc user_name ⟨e.1, tag_key, user_policy_list⟩

/-- user_policies (lines 133-143): the grouping dict built by iterating the
userTags map in insertion order (modelled as an association list of
(uid, user) pairs). -/
def group_by_user (time_policies : List Policy)
    (user_tags : List (String × UserTag)) : List (String × GroupEntry) :=
  user_tags.foldl (groupStep time_policies) []

/-- Does this (uid, user) pair contribute an entry under display name `n`?
True when its resolved name is `n` and its matching policy list is
non-empty (line 142's guard). -/
def contributesTo (time_policies : List Policy) (n : String)
    (e : String × UserTag) : Bool :=
  (resolvedName e.2 == n) && !(userPolicyList time_policies e.2).isEmpty

/-- The group entry a (uid, user) pair writes (line 143). -/
def entryOf (time_policies : List Policy) (e : String × UserTag) : GroupEntry :=
  ⟨e.1, tagKeyOf e.2.affiliatedTag, userPolicyList time_policies e.2⟩

/-- One parsed line of time_extensions.log as show_log reads it: a JSON
object whose fields may be absent (every read in lines 419-436 is a .get
with a default). -/
structure LogRecord where
  timestamp : Option String
  policy_id : Option String
  tags : Option (List String)
  action : Option String
  duration_minutes : Option Int
  expires_at : Option String
  extension_minutes : Option Int
  old_duration : Option String
  new_duration : Option String
deriving DecidableEq

/-- One raw line of the log file: either it parses as JSON to a record, or
json.loads raises on it. -/
inductive LogLine where
  | good (r : LogRecord)
  | bad
deriving DecidableEq

/-- What one run of the log command does: `exitCode` is `none` when show_log
returns (the process exits 0) and `some 1` when an uncaught json.loads
error kills the process; `output` the lines printed before that. -/
structure ShowLogOutcome where
  exitCode : Option Nat
  output : List String
deriving DecidableEq

/-- The rendering of one well-formed entry (lines 419-439): dispatch on the
"action" field — "paused" and "disabled" have their own templates, anything
else (including a missing action) renders as an extension. A missing field
renders as "unknown" (ints through str). -/
def render_entry (r : LogRecord) : String :=
  let timestamp := r.timestamp.getD "unknown"
  let policy_id := r.policy_id.getD "unknown"
  let tags := String.intercalate ", " (r.tags.getD [])
  if r.action == some "paused" then
    timestamp ++ " - Paused policy " ++ policy_id ++ " (" ++ tags ++ ") for "
      ++ (r.duration_minutes.map toString).getD "unknown"
      ++ " minutes (expires: " ++ r.expires_at.getD "unknown" ++ ")"
  else if r.action == some "disabled" then
    timestamp ++ " - Disabled policy " ++ policy_id ++ " (" ++ tags ++ ") for "
      ++ (r.duration_minutes.map toString).getD "unknown" ++ " minutes"
  else
    timestamp ++ " - Extended policy " ++ policy_id ++ " (" ++ tags ++ ") by "
      ++ (r.extension_minutes.map toString).getD "unknown" ++ " min: "
      ++ r.old_duration.getD "unknown" ++ " → " ++ r.new_duration.getD "unknown"

/-- The line loop of show_log: render each parsed line; the first line
json.loads cannot parse raises out of the function (no per-line handler), so
iteration stops and the process dies with a non-zero exit. `acc` holds the
output so far, reversed. -/
def show_log_aux : List LogLine → List String → ShowLogOutcome
  | [], acc => { exitCode := none, output := acc.reverse }
  | LogLine.good r :: rest, acc => show_log_aux rest (render_entry r :: acc)
  | LogLine.bad :: _, acc => { exitCode := some 1, output := acc.reverse }

/-- show_log (lines 412-441).  The file is `none` when absent (open raises
FileNotFoundError, caught: an informational message, normal return) and
`some lines` otherwise. -/
def show_log (file : Option (List LogLine)) : ShowLogOutcome :=
  match file with
  | none => { exitCode := none,
              output := ["No log file found. No extensions have been granted yet."] }
  | some lines => show_log_aux lines ["Time Extension Log:\n"]

/-- C1: for every policy record located by id with integer duration d and
every extension of m minutes, extend sets the record's duration to d + m*60
before pushing it, and when the send returns a body it appends exactly one
audit entry whose old_duration and new_duration are the format_duration
renderings of d and d + m*60. -/
theorem extend_time_spec (health : Health) (policy_rules : List Policy)
    (policy_id : String) (p : Policy) (d m : Int) (b : Bool) (now : String)
    (hc : health.status = some "connected")
    (hf : findPolicy policy_rules policy_id = some p)
    (hd : p.duration = some d) :
    extend_time health policy_rules policy_id m (SendResult.ok b) now =
      { exitCode := none,
        sent := some { p with duration := some (d + m * 60) },
        audit := [AuditEntry.extension now policy_id (p.tag.getD []) m
                    (format_duration d) (format_duration (d + m * 60))] } := by
  simp [extend_time, hc, hf, hd]

/-- C1 witness at the spec's concrete numbers: duration 3600 extended by 15
minutes gives 4500, rendered "1h 0m" and "1h 15m". -/
theorem extend_time_spec_witness :
    extend_time ⟨some "connected"⟩
        [⟨some "p1", some "mac", some "block", some 3600, some "0 22 * * *",
          some "0", some "5", some ["tag:1"]⟩] "p1" 15 (SendResult.ok true) "T"
      = { exitCode := none,
          sent := some ⟨some "p1", some "mac", some "block", some 4500,
            some "0 22 * * *", some "0", some "5", some ["tag:1"]⟩,
          audit := [AuditEntry.extension "T" "p1" ["tag:1"] 15 "1h 0m" "1h 15m"] } :=
  (extend_time_spec ⟨some "connected"⟩
      [⟨some "p1", some "mac", some "block", some 3600, some "0 22 * * *",
        some "0", some "5", some ["tag:1"]⟩] "p1"
      ⟨some "p1", some "mac", some "block", some 3600, some "0 22 * * *",
        some "0", some "5", some ["tag:1"]⟩ 3600 15 true "T" rfl rfl rfl).trans
    (by decide)

/-- C2: for every located policy record, grant/disable sets disabled to "1"
and, when the send returns a body, appends exactly one "disabled" audit
entry carrying the requested minutes; enable sets disabled to "0" and
appends no audit entry at all. -/
theorem grant_enable_spec (health : Health) (policy_rules : List Policy)
    (policy_id : String) (p : Policy) (m : Int) (b : Bool) (now : String)
    (hc : health.status = some "connected")
    (hf : findPolicy policy_rules policy_id = some p) :
    disable_policy health policy_rules policy_id m (SendResult.ok b) now =
      { exitCode := none, sent := some { p with disabled := some "1" },
        audit := [AuditEntry.disabled now policy_id (p.tag.getD []) m] }
    ∧ enable_policy health policy_rules policy_id (SendResult.ok b) now =
      { exitCode := none, sent := some { p with disabled := some "0" },
        audit := [] } := by
  constructor <;> simp [disable_policy, enable_policy, hc, hf]

/-- C2 witness: a concrete connected run granting 30 minutes, then enabling. -/
theorem grant_enable_spec_witness :
    disable_policy ⟨some "connected"⟩
        [⟨some "p2", some "intranet", some "block", some 600, some "0 21 * * *",
          some "0", some "1", some ["tag:2"]⟩] "p2" 30 (SendResult.ok true) "T"
      = { exitCode := none,
          sent := some ⟨some "p2", some "intranet", some "block", some 600,
            some "0 21 * * *", some "1", some "1", some ["tag:2"]⟩,
          audit := [AuditEntry.disabled "T" "p2" ["tag:2"] 30] }
    ∧ enable_policy ⟨some "connected"⟩
        [⟨some "p2", some "intranet", some "block", some 600, some "0 21 * * *",
          some "0", some "1", some ["tag:2"]⟩] "p2" (SendResult.ok true) "T"
      = { exitCode := none,
          sent := some ⟨some "p2", some "intranet", some "block", some 600,
            some "0 21 * * *", some "0", some "1", some ["tag:2"]⟩,
          audit := [] } :=
  (grant_enable_spec ⟨some "connected"⟩
      [⟨some "p2", some "intranet", some "block", some 600, some "0 21 * * *",
        some "0", some "1", some ["tag:2"]⟩] "p2"
      ⟨some "p2", some "intranet", some "block", some 600, some "0 21 * * *",
        some "0", some "1", some ["tag:2"]⟩ 30 true "T" rfl rfl).imp
    (fun h => h.trans (by decide)) (fun h => h.trans (by decide))

/-- C3: for every located policy, a pause response with success false makes
the run exit non-zero with no audit entry; success true with an expiresAt
string appends exactly one "paused" entry carrying that exact string. -/
theorem pause_policy_spec (health : Health) (policy_rules : List Policy)
    (policy_id : String) (p : Policy) (m : Int) (now expires : String)
    (eo : Option String)
    (hc : health.status = some "connected")
    (hf : findPolicy policy_rules policy_id = some p) :
    pause_policy health policy_rules policy_id m (PauseResult.ok false eo) now =
      { exitCode := some 1, sent := none, audit := [] }
    ∧ pause_policy health policy_rules policy_id m
        (PauseResult.ok true (some expires)) now =
      { exitCode := none, sent := none,
        audit := [AuditEntry.paused now policy_id (p.tag.getD []) m expires] } := by
  constructor <;> simp [pause_policy, hc, hf]

/-- C3 witness: the spec's expiry string "2024-01-01T10:00:00Z" comes back
verbatim in the single pause entry, and a success-false body aborts. -/
theorem pause_policy_spec_witness :
    pause_policy ⟨some "connected"⟩
        [⟨some "p3", some "mac", some "block", some 900, some "30 20 * * *",
          some "0", some "2", some ["tag:3"]⟩] "p3" 20
        (PauseResult.ok false none) "T"
      = { exitCode := some 1, sent := none, audit := [] }
    ∧ pause_policy ⟨some "connected"⟩
        [⟨some "p3", some "mac", some "block", some 900, some "30 20 * * *",
          some "0", some "2", some ["tag:3"]⟩] "p3" 20
        (PauseResult.ok true (some "2024-01-01T10:00:00Z")) "T"
      = { exitCode := none, sent := none,
          audit := [AuditEntry.paused "T" "p3" ["tag:3"] 20
                      "2024-01-01T10:00:00Z"] } :=
  pause_policy_spec ⟨some "connected"⟩
      [⟨some "p3", some "mac", some "block", some 900, some "30 20 * * *",
        some "0", some "2", some ["tag:3"]⟩] "p3"
      ⟨some "p3", some "mac", some "block", some 900, some "30 20 * * *",
        some "0", some "2", some ["tag:3"]⟩ 20 "T" "2024-01-01T10:00:00Z" none
      rfl rfl

/-- C4: whichever record a mutation command pushes back to the bridge agrees
with the located record on pid, type and tag (and on every field other than
the one the command rewrites: extend touches only duration, grant/enable
only disabled); pause pushes no record at all. -/
theorem mutation_frame_spec (health : Health) (policy_rules : List Policy)
    (policy_id : String) (p : Policy) (m : Int) (sr : SendResult)
    (pr : PauseResult) (now : String)
    (hc : health.status = some "connected")
    (hf : findPolicy policy_rules policy_id = some p) :
    (∀ q, (extend_time health policy_rules policy_id m sr now).sent = some q →
       q.pid = p.pid ∧ q.ptype = p.ptype ∧ q.tag = p.tag ∧ q.action = p.action
         ∧ q.cronTime = p.cronTime ∧ q.hitCount = p.hitCount
         ∧ q.disabled = p.disabled)
    ∧ (∀ q, (disable_policy health policy_rules policy_id m sr now).sent = some q →
       q.pid = p.pid ∧ q.ptype = p.ptype ∧ q.tag = p.tag ∧ q.action = p.action
         ∧ q.cronTime = p.cronTime ∧ q.hitCount = p.hitCount
         ∧ q.duration = p.duration)
    ∧ (∀ q, (enable_policy health policy_rules policy_id sr now).sent = some q →
       q.pid = p.pid ∧ q.ptype = p.ptype ∧ q.tag = p.tag ∧ q.action = p.action
         ∧ q.cronTime = p.cronTime ∧ q.hitCount = p.hitCount
         ∧ q.duration = p.duration)
    ∧ (pause_policy health policy_rules policy_id m pr now).sent = none := by
  refine ⟨?_, ?_, ?_, ?_⟩
  · cases sr <;> intro q hq <;>
      simp [extend_time, hc, hf] at hq <;> simp [← hq]
  · cases sr <;> intro q hq <;>
      simp [disable_policy, hc, hf] at hq <;> simp [← hq]
  · cases sr <;> intro q hq <;>
      simp [enable_policy, hc, hf] at hq <;> simp [← hq]
  · cases pr with
    | httpError => simp [pause_policy, hc, hf]
    | ok success eo => cases success <;> simp [pause_policy, hc, hf]

/-- C4 witness: a concrete connected run of each command. -/
theorem mutation_frame_spec_witness :
    (pause_policy ⟨some "connected"⟩
        [⟨some "p4", some "mac", some "block", some 1200, some "0 19 * * *",
          some "0", some "7", some ["tag:4"]⟩] "p4" 10
        (PauseResult.ok true (some "E")) "T").sent = none :=
  (mutation_frame_spec ⟨some "connected"⟩
      [⟨some "p4", some "mac", some "block", some 1200, some "0 19 * * *",
        some "0", some "7", some ["tag:4"]⟩] "p4"
      ⟨some "p4", some "mac", some "block", some 1200, some "0 19 * * *",
        some "0", some "7", some ["tag:4"]⟩ 10 (SendResult.ok true)
      (PauseResult.ok true (some "E")) "T" rfl rfl).2.2.2

/-- C5: every mutation command aborts (exit 1, nothing pushed, no audit
entry) when the health status is not "connected"; with a connected bridge it
aborts the same way when no record of the fetched list has the target pid,
before any mutation is attempted; and the lookup runs over the full
unfiltered list — a record matching the pid is found even when it fails the
time-based predicate. -/
theorem preflight_lookup_spec (health : Health) (policy_rules : List Policy)
    (policy_id : String) (m : Int) (sr : SendResult) (pr : PauseResult)
    (now : String) :
    (health.status ≠ some "connected" →
       extend_time health policy_rules policy_id m sr now
           = ⟨some 1, none, []⟩
         ∧ disable_policy health policy_rules policy_id m sr now
           = ⟨some 1, none, []⟩
         ∧ enable_policy health policy_rules policy_id sr now
           = ⟨some 1, none, []⟩
         ∧ pause_policy health policy_rules policy_id m pr now
           = ⟨some 1, none, []⟩)
    ∧ (health.status = some "connected" →
       findPolicy policy_rules policy_id = none →
       extend_time health policy_rules policy_id m sr now
           = ⟨some 1, none, []⟩
         ∧ disable_policy health policy_rules policy_id m sr now
           = ⟨some 1, none, []⟩
         ∧ enable_policy health policy_rules policy_id sr now
           = ⟨some 1, none, []⟩
         ∧ pause_policy health policy_rules policy_id m pr now
           = ⟨some 1, none, []⟩)
    ∧ (∀ p : Policy, health.status = some "connected" → p.pid = some policy_id →
       isTimeBased p = false →
       (extend_time health (p :: policy_rules) policy_id m (SendResult.ok true)
           now).exitCode = none) := by
  refine ⟨fun hne => ?_, fun hc hnf => ?_, fun p hc hp _ => ?_⟩
  · have hb : (health.status == some "connected") = false := by
      simpa using hne
    exact ⟨by simp [extend_time, hb], by simp [disable_policy, hb],
      by simp [enable_policy, hb], by simp [pause_policy, hb]⟩
  · exact ⟨by simp [extend_time, hc, hnf], by simp [disable_policy, hc, hnf],
      by simp [enable_policy, hc, hnf], by simp [pause_policy, hc, hnf]⟩
  · have hfind : findPolicy (p :: policy_rules) policy_id = some p :=
      List.find?_cons_of_pos _ (by simp [hp])
    simp [extend_time, hc, hfind]

/-- C7 counterexample to the claim as stated: with a connected bridge and the
target present, a setPolicy response body reporting non-success
(success false) does not abort extend — the run ends with a normal exit
(code 0) and still appends an audit entry. -/
theorem remote_rejection_counterexample :
    (extend_time ⟨some "connected"⟩
        [⟨some "p1", some "mac", some "block", some 3600, some "0 22 * * *",
          some "0", some "5", some ["tag:1"]⟩] "p1" 15
        (SendResult.ok false) "T").exitCode = none
    ∧ (extend_time ⟨some "connected"⟩
        [⟨some "p1", some "mac", some "block", some 3600, some "0 22 * * *",
          some "0", some "5", some ["tag:1"]⟩] "p1" 15
        (SendResult.ok false) "T").audit ≠ [] := by
  constructor
  · rfl
  · decide

/-- C7 amended: only the pause command inspects the mutation response body —
pause aborts non-zero with no audit entry when the body reports success
false (or the call fails); for extend, grant/disable and enable only a
transport-level failure of the send call (connection error or non-2xx) is
fatal, aborting non-zero with no audit entry, while any returned body is
accepted unconditionally. -/
theorem remote_rejection_amended_spec (health : Health) (policy_rules : List Policy)
    (policy_id : String) (p : Policy) (m : Int) (now : String)
    (hc : health.status = some "connected")
    (hf : findPolicy policy_rules policy_id = some p) :
    ((extend_time health policy_rules policy_id m SendResult.httpError
        now).exitCode = some 1
      ∧ (extend_time health policy_rules policy_id m SendResult.httpError
          now).audit = [])
    ∧ ((disable_policy health policy_rules policy_id m SendResult.httpError
        now).exitCode = some 1
      ∧ (disable_policy health policy_rules policy_id m SendResult.httpError
          now).audit = [])
    ∧ ((enable_policy health policy_rules policy_id SendResult.httpError
        now).exitCode = some 1
      ∧ (enable_policy health policy_rules policy_id SendResult.httpError
          now).audit = [])
    ∧ (∀ eo, (pause_policy health policy_rules policy_id m
          (PauseResult.ok false eo) now).exitCode = some 1
        ∧ (pause_policy health policy_rules policy_id m
            (PauseResult.ok false eo) now).audit = [])
    ∧ (pause_policy health policy_rules policy_id m PauseResult.httpError
        now).exitCode = some 1
    ∧ (∀ b, (extend_time health policy_rules policy_id m (SendResult.ok b)
          now).exitCode = none
        ∧ (disable_policy health policy_rules policy_id m (SendResult.ok b)
            now).exitCode = none
        ∧ (enable_policy health policy_rules policy_id (SendResult.ok b)
            now).exitCode = none) := by
  refine ⟨⟨?_, ?_⟩, ⟨?_, ?_⟩, ⟨?_, ?_⟩, fun eo => ⟨?_, ?_⟩, ?_, fun b => ⟨?_, ?_, ?_⟩⟩ <;>
    simp [extend_time, disable_policy, enable_policy, pause_policy, hc, hf]

/-- C7 amended witness: a concrete connected run where the send call fails at
the transport level for extend, and a pause body reports failure. -/
theorem remote_rejection_amended_spec_witness :
    ((extend_time ⟨some "connected"⟩
        [⟨some "p5", some "mac", some "block", some 300, some "0 18 * * *",
          some "0", some "0", some ["tag:5"]⟩] "p5" 5
        SendResult.httpError "T").exitCode = some 1
      ∧ (extend_time ⟨some "connected"⟩
          [⟨some "p5", some "mac", some "block", some 300, some "0 18 * * *",
            some "0", some "0", some ["tag:5"]⟩] "p5" 5
          SendResult.httpError "T").audit = []) :=
  (remote_rejection_amended_spec ⟨some "connected"⟩
      [⟨some "p5", some "mac", some "block", some 300, some "0 18 * * *",
        some "0", some "0", some ["tag:5"]⟩] "p5"
      ⟨some "p5", some "mac", some "block", some 300, some "0 18 * * *",
        some "0", some "0", some ["tag:5"]⟩ 5 "T" rfl rfl).1

/-- C6: selectTimeBasedPolicies returns exactly the input records whose type
is "mac" or "intranet" with a duration field, a cronTime field and a
non-empty tag list (the isTimeBased predicate); the output is an
order-preserving sublist of the input; and the selection is idempotent. -/
theorem selectTimeBasedPolicies_spec (policy_rules : List Policy) :
    (∀ p, p ∈ selectTimeBasedPolicies policy_rules ↔
       p ∈ policy_rules ∧ isTimeBased p = true)
    ∧ (selectTimeBasedPolicies policy_rules).Sublist policy_rules
    ∧ selectTimeBasedPolicies (selectTimeBasedPolicies policy_rules)
        = selectTimeBasedPolicies policy_rules := by
  refine ⟨fun p => List.mem_filter, List.filter_sublist _, ?_⟩
  simp [selectTimeBasedPolicies, List.filter_filter]

/-- Helper for C8: rendering a list of well-formed lines appends their
renderings to the accumulated output and returns normally. -/
theorem show_log_aux_good (rs : List LogRecord) (acc : List String) :
    show_log_aux (rs.map LogLine.good) acc =
      { exitCode := none, output := acc.reverse ++ rs.map render_entry } := by
  induction rs generalizing acc with
  | nil => simp [show_log_aux]
  | cons r rest ih => simp [show_log_aux, ih]

/-- Helper for C8: the first malformed line kills the run whatever follows. -/
theorem show_log_aux_bad (pre : List LogRecord) (post : List LogLine)
    (acc : List String) :
    (show_log_aux (pre.map LogLine.good ++ LogLine.bad :: post) acc).exitCode
      = some 1 := by
  induction pre generalizing acc with
  | nil => simp [show_log_aux]
  | cons r rest ih => simp [show_log_aux, ih]

/-- C8: the log command on a missing file prints the informational message
and returns normally (exit 0); on an existing file every well-formed line is
rendered after the header, and a single malformed line anywhere makes the
whole read fail with a non-zero exit. -/
theorem show_log_spec :
    show_log none =
      { exitCode := none,
        output := ["No log file found. No extensions have been granted yet."] }
    ∧ (∀ rs : List LogRecord,
        show_log (some (rs.map LogLine.good)) =
          { exitCode := none,
            output := "Time Extension Log:\n" :: rs.map render_entry })
    ∧ (∀ (pre : List LogRecord) (post : List LogLine),
        (show_log (some (pre.map LogLine.good ++ LogLine.bad :: post))).exitCode
          = some 1) := by
  refine ⟨rfl, fun rs => ?_, fun pre post => ?_⟩
  · simpa [show_log] using show_log_aux_good rs ["Time Extension Log:\n"]
  · simpa [show_log] using show_log_aux_bad pre post ["Time Extension Log:\n"]

/-- C9: parse_cron_time splits on whitespace; with at least two fields the
result is "HH:MM" with the hour taken from field index 1 and the minute from
field index 0, each zero-filled to width 2; with fewer than two fields the
input comes back unchanged (the function is total, so no failure is ever
raised); and the spec's three examples hold. -/
theorem parse_cron_time_spec (s : String) :
    (2 ≤ (pySplit s).length →
       parse_cron_time s =
         zfill ((pySplit s).getD 1 "") 2 ++ ":" ++ zfill ((pySplit s).getD 0 "") 2)
    ∧ ((pySplit s).length < 2 → parse_cron_time s = s)
    ∧ parse_cron_time "0 22 * * *" = "22:00"
    ∧ parse_cron_time "5 7 * * *" = "07:05"
    ∧ parse_cron_time "bad" = "bad" := by
  refine ⟨fun h2 => ?_, fun hlt => ?_, by decide, by decide, by decide⟩
  · unfold parse_cron_time
    match hps : pySplit s with
    | [] => rw [hps] at h2; simp at h2
    | [a] => rw [hps] at h2; simp at h2
    | a :: b :: rest => simp [hps]
  · unfold parse_cron_time
    match hps : pySplit s with
    | [] => simp
    | [a] => simp
    | a :: b :: rest => rw [hps] at hlt; simp at hlt; omega

/-- Helper for C10: after inserting under key k, lookup at k yields the new
value (Python d[k] = v; d[k]). -/
theorem lookupDict_dictInsert_self {α : Type} (d : List (String × α))
    (k : String) (v : α) :
    lookupDict (dictInsert d k v) k = some v := by
  unfold lookupDict dictInsert
  by_cases hany : d.any (fun kv => kv.1 == k) = true
  · rw [if_pos hany, List.find?_map]
    have hcomp : ((fun kv : String × α => kv.1 == k) ∘
        fun kv => if kv.1 == k then (k, v) else kv) = fun kv => kv.1 == k := by
      funext kv
      by_cases h : kv.1 = k <;> simp [h]
    rw [hcomp]
    obtain ⟨kv0, hmem, hkv0⟩ := List.any_eq_true.mp hany
    cases hfind : List.find? (fun kv : String × α => kv.1 == k) d with
    | none => exact absurd hkv0 (List.find?_eq_none.mp hfind kv0 hmem)
    | some kv1 =>
      have h1 : kv1.1 = k := by simpa using List.find?_some hfind
      simp [h1]
  · rw [if_neg hany]
    have hnone : List.find? (fun kv : String × α => kv.1 == k) d = none :=
      List.find?_eq_none.mpr (fun x hx hxk =>
        hany (List.any_eq_true.mpr ⟨x, hx, hxk⟩))
    rw [List.find?_append, hnone]
    simp

/-- Helper for C10: inserting under key k leaves lookup at any other key
unchanged. -/
theorem lookupDict_dictInsert_ne {α : Type} (d : List (String × α))
    (k n : String) (v : α) (hkn : (k == n) = false) :
    lookupDict (dictInsert d k v) n = lookupDict d n := by
  unfold lookupDict dictInsert
  by_cases hany : d.any (fun kv => kv.1 == k) = true
  · rw [if_pos hany, List.find?_map]
    have hcomp : ((fun kv : String × α => kv.1 == n) ∘
        fun kv => if kv.1 == k then (k, v) else kv) = fun kv => kv.1 == n := by
      funext kv
      by_cases h : kv.1 = k <;> simp [h, hkn]
    rw [hcomp]
    cases hfind : List.find? (fun kv : String × α => kv.1 == n) d with
    | none => simp
    | some kv1 =>
      have h1 : kv1.1 = n := by simpa using List.find?_some hfind
      have hk : ¬kv1.1 = k := by
        rw [h1]
        exact Ne.symm (beq_eq_false_iff_ne.mp hkn)
      simp [hk]
  · rw [if_neg hany, List.find?_append]
    simp [hkn]

/-- Helper for C10: dict insertion preserves duplicate-free keys. -/
theorem keys_nodup_dictInsert {α : Type} (d : List (String × α)) (k : String)
    (v : α) (h : (d.map Prod.fst).Nodup) :
    ((dictInsert d k v).map Prod.fst).Nodup := by
  unfold dictInsert
  by_cases hany : d.any (fun kv => kv.1 == k) = true
  · rw [if_pos hany]
    have hkeys : (d.map (fun kv => if kv.1 == k then (k, v) else kv)).map Prod.fst
        = d.map Prod.fst := by
      rw [List.map_map]
      refine List.map_congr_left (fun kv _ => ?_)
      by_cases hkv : kv.1 = k <;> simp [hkv]
    rw [hkeys]
    exact h
  · rw [if_neg hany, List.map_append, List.nodup_append]
    refine ⟨h, by simp, ?_⟩
    intro a ha hb
    simp at hb
    obtain ⟨kv, hkv, hfst⟩ := List.mem_map.mp ha
    have hanyf : d.any (fun kv => kv.1 == k) = false := by
      cases hb2 : d.any (fun kv => kv.1 == k) with
      | false => rfl
      | true => exact absurd hb2 hany
    exact List.any_eq_false.mp hanyf kv hkv (by simp [hfst, hb])

/-- Helper for C10: the grouping fold keeps its dict's keys duplicate-free. -/
theorem group_fold_keys_nodup (tp : List Policy) (uts : List (String × UserTag))
    (acc : List (String × GroupEntry)) (h : (acc.map Prod.fst).Nodup) :
    ((uts.foldl (groupStep tp) acc).map Prod.fst).Nodup := by
  induction uts generalizing acc with
  | nil => simpa using h
  | cons e rest ih =>
    rw [List.foldl_cons]
    refine ih _ ?_
    simp only [groupStep]
    by_cases he : (userPolicyList tp e.2).isEmpty = true
    · simpa [he] using h
    · simp only [he, if_false]
      exact keys_nodup_dictInsert _ _ _ h

/-- Helper for C10: lookup in the grouping fold is decided by the last
iterated (uid, user) pair contributing to the name, falling back to the
accumulator when none does. -/
theorem group_fold_lookup (tp : List Policy) (n : String)
    (uts : List (String × UserTag)) (acc : List (String × GroupEntry)) :
    lookupDict (uts.foldl (groupStep tp) acc) n =
      match (uts.filter (contributesTo tp n)).getLast? with
      | some e => some (entryOf tp e)
      | none => lookupDict acc n := by
  induction uts generalizing acc with
  | nil => simp
  | cons e rest ih =>
    rw [List.foldl_cons, ih]
    by_cases hcon : contributesTo tp n e = true
    · rw [List.filter_cons_of_pos hcon]
      have hparts : resolvedName e.2 = n ∧ (userPolicyList tp e.2).isEmpty = false := by
        simpa [contributesTo] using hcon
      cases hfr : rest.filter (contributesTo tp n) with
      | nil =>
        simp only [List.getLast?_singleton, List.getLast?_nil]
        show lookupDict (groupStep tp acc e) n = some (entryOf tp e)
        have hstep : groupStep tp acc e =
            dictInsert acc n
              ⟨e.1, tagKeyOf e.2.affiliatedTag, userPolicyList tp e.2⟩ := by
          simp [groupStep, hparts.2, hparts.1]
        rw [hstep]
        simpa [entryOf] using lookupDict_dictInsert_self acc n
          (⟨e.1, tagKeyOf e.2.affiliatedTag, userPolicyList tp e.2⟩ : GroupEntry)
      | cons x xs =>
        rw [List.getLast?_cons_cons]
        cases hgl : (x :: xs).getLast? with
        | none => exact absurd (List.getLast?_eq_none_iff.mp hgl) (by simp)
        | some y => simp
    · rw [List.filter_cons_of_neg hcon]
      cases hrest : (rest.filter (contributesTo tp n)).getLast? with
      | some e1 => simp
      | none =>
        show lookupDict (groupStep tp acc e) n = lookupDict acc n
        by_cases he : (userPolicyList tp e.2).isEmpty = true
        · simp [groupStep, he]
        · have he' : (userPolicyList tp e.2).isEmpty = false := by simpa using he
          have hname : (resolvedName e.2 == n) = false := by
            cases hng : (resolvedName e.2 == n) with
            | false => rfl
            | true => exact absurd (by simp [contributesTo, hng, he']) hcon
          have hstep : groupStep tp acc e =
              dictInsert acc (resolvedName e.2)
                ⟨e.1, tagKeyOf e.2.affiliatedTag, userPolicyList tp e.2⟩ := by
            simp [groupStep, he']
          rw [hstep]
          exact lookupDict_dictInsert_ne acc (resolvedName e.2) n _ hname

/-- C10: the grouped-by-user result is keyed by display name: its keys are
duplicate-free, and the entry stored under a name is exactly the one written
by the last iterated (uid, user) pair whose resolved display name is that
name and whose matching policy subset is non-empty — so when two distinct
user records share one display name and both match non-empty subsets, a
single entry remains, holding only the later user's uid, tag key and policy
subset (the earlier user's is silently replaced). -/
theorem group_by_user_keyed_by_name (tp : List Policy)
    (uts : List (String × UserTag)) (n : String) :
    ((group_by_user tp uts).map Prod.fst).Nodup
    ∧ lookupDict (group_by_user tp uts) n =
        ((uts.filter (contributesTo tp n)).getLast?).map (entryOf tp) := by
  constructor
  · exact group_fold_keys_nodup tp uts [] (by simp)
  · rw [group_by_user, group_fold_lookup]
    cases (uts.filter (contributesTo tp n)).getLast? <;> simp [lookupDict]

end FirewallaCLI
